import Mathlib

/-!
# Verification of the "I Love Steps" walking calculator core

Shallow embedding of the arithmetic core of `src/app/routes/home.tsx`:
the input parser `toNumber`, the engine `useWalkingCalc`, the step
derivation `calcSteps`, and the `resetAll` state action.

JavaScript numbers are modelled as exact rationals (`ℚ`): every
arithmetic expression of the source is translated literally, with
decimal literals read exactly.  Division by zero in `ℚ` yields `0` by
convention; the source guards its division paths, so the only place
this convention is visible is noted at the definition concerned.
The one genuinely floating-point behaviour the source relies on —
`parseFloat` overflowing to `Infinity`, which `Number.isFinite`
rejects — is modelled by the exact double-overflow threshold
`2^1024 - 2^970` (values of magnitude at least this round to `±∞`
under round-to-nearest-even).
-/

namespace ILoveSteps

/-- JavaScript `a || b` on numbers, restricted to the rational model:
the only falsy rational is `0` (`NaN` is not representable here). -/
def jsOr (a b : ℚ) : ℚ := if a = 0 then b else a

/-! ## Enumerated input fields (`home.tsx` lines 103–104, 174–187) -/

/-- `type SexKey = "female" | "male"` -/
inductive SexKey where
  | female : SexKey
  | male : SexKey
deriving DecidableEq, Repr

/-- `type PaceKey = "easy" | "brisk" | "power" | "jog"` -/
inductive PaceKey where
  | easy : PaceKey
  | brisk : PaceKey
  | power : PaceKey
  | jog : PaceKey
deriving DecidableEq, Repr

/-- Weight unit toggle `"kg" | "lb"`. -/
inductive WeightUnit where
  | kg : WeightUnit
  | lb : WeightUnit
deriving DecidableEq, Repr

/-- Height unit toggle `"cm" | "in"` (`in` is a Lean keyword, hence `inch`). -/
inductive HeightUnit where
  | cm : HeightUnit
  | inch : HeightUnit
deriving DecidableEq, Repr

/-- Input-mode toggle `"steps" | "distance" | "time"`. -/
inductive InputMode where
  | steps : InputMode
  | distance : InputMode
  | time : InputMode
deriving DecidableEq, Repr

/-! ## Constant tables (`home.tsx` lines 106–112) -/

/-- `STRIDE_FACTORS: Record<SexKey, number> = { female: 0.413, male: 0.415 }` -/
def STRIDE_FACTORS : SexKey → ℚ
  | SexKey.female => 0.413
  | SexKey.male => 0.415

/-- One row of the `PACE` table: `{ mph: number; mets: number; label: string }`. -/
structure PaceEntry where
  mph : ℚ
  mets : ℚ
  label : String
deriving Repr

/-- The `PACE` table of `home.tsx` lines 107–112. -/
def PACE : PaceKey → PaceEntry
  | PaceKey.easy => ⟨2.5, 3.0, "Easy Walk (~2.5 mph / 4 kph)"⟩
  | PaceKey.brisk => ⟨3.5, 4.3, "Brisk Walk (~3.5 mph / 5.6 kph)"⟩
  | PaceKey.power => ⟨4.3, 5.0, "Power Walk (~4.3 mph / 6.9 kph)"⟩
  | PaceKey.jog => ⟨5.0, 7.0, "Light Jog (~5 mph / 8 kph)"⟩

/-! ## The engine `useWalkingCalc` (`home.tsx` lines 114–171)

The body is a sequence of `const` bindings; each becomes a definition
below, named after the bound constant.  The engine is additionally
parametrised by the pace table (`useWalkingCalcT`), so that the guard
`mph > 0 ? … : 0` can be exercised on a degenerate table entry;
`useWalkingCalc` instantiates it with the actual `PACE` table. -/

/-- Argument record of `useWalkingCalc` (its props object). -/
structure CalcInput where
  weight : ℚ
  weightUnit : WeightUnit
  height : ℚ
  heightUnit : HeightUnit
  steps : ℚ
  sex : SexKey
  pace : PaceKey
  customStrideCm : ℚ
  useCustomStride : Bool
deriving DecidableEq, Repr

/-- `const weightKg = weightUnit === "kg" ? weight : weight * 0.45359237` -/
def weightKgOf (i : CalcInput) : ℚ :=
  if i.weightUnit = WeightUnit.kg then i.weight else i.weight * 0.45359237

/-- `const heightCm = heightUnit === "cm" ? height : height * 2.54` -/
def heightCmOf (i : CalcInput) : ℚ :=
  if i.heightUnit = HeightUnit.cm then i.height else i.height * 2.54

/-- `const strideAuto = heightCm * STRIDE_FACTORS[sex]` -/
def strideAutoOf (i : CalcInput) : ℚ :=
  heightCmOf i * STRIDE_FACTORS i.sex

/-- `const strideCm = useCustomStride ? customStrideCm || strideAuto : strideAuto` -/
def strideCmOf (i : CalcInput) : ℚ :=
  if i.useCustomStride then jsOr i.customStrideCm (strideAutoOf i) else strideAutoOf i

/-- `const distanceKm = ((steps || 0) * (strideCm / 100)) / 1000` -/
def distanceKmOf (i : CalcInput) : ℚ :=
  jsOr i.steps 0 * (strideCmOf i / 100) / 1000

/-- `const distanceMi = distanceKm * 0.621371` -/
def distanceMiOf (i : CalcInput) : ℚ :=
  distanceKmOf i * 0.621371

/-- `const hours = mph > 0 ? distanceMi / mph : 0` (table-parametrised). -/
def hoursOf (tbl : PaceKey → PaceEntry) (i : CalcInput) : ℚ :=
  if (tbl i.pace).mph > 0 then distanceMiOf i / (tbl i.pace).mph else 0

/-- `const minutes = hours * 60` -/
def minutesOf (tbl : PaceKey → PaceEntry) (i : CalcInput) : ℚ :=
  hoursOf tbl i * 60

/-- `const calories = mets * 3.5 * weightKg * (minutes / 200)` -/
def caloriesOf (tbl : PaceKey → PaceEntry) (i : CalcInput) : ℚ :=
  (tbl i.pace).mets * 3.5 * weightKgOf i * (minutesOf tbl i / 200)

/-- `const cadence = minutes > 0 ? steps / minutes : 0` -/
def cadenceOf (tbl : PaceKey → PaceEntry) (i : CalcInput) : ℚ :=
  if minutesOf tbl i > 0 then i.steps / minutesOf tbl i else 0

/-- Result record returned by `useWalkingCalc` (`home.tsx` lines 149–159). -/
structure CalcOutput where
  strideAuto : ℚ
  strideCm : ℚ
  distanceKm : ℚ
  distanceMi : ℚ
  minutes : ℚ
  hours : ℚ
  calories : ℚ
  cadence : ℚ
  mph : ℚ
deriving DecidableEq, Repr

/-- The engine body, parametrised by the pace table. -/
def useWalkingCalcT (tbl : PaceKey → PaceEntry) (i : CalcInput) : CalcOutput :=
  { strideAuto := strideAutoOf i
    strideCm := strideCmOf i
    distanceKm := distanceKmOf i
    distanceMi := distanceMiOf i
    minutes := minutesOf tbl i
    hours := hoursOf tbl i
    calories := caloriesOf tbl i
    cadence := cadenceOf tbl i
    mph := (tbl i.pace).mph }

/-- `useWalkingCalc` of `home.tsx`, with the actual `PACE` table. -/
def useWalkingCalc : CalcInput → CalcOutput :=
  useWalkingCalcT PACE

/-! ## UI state of `CaloriesCalculator` (`home.tsx` lines 173–231)

One `useState` field per record field, with the component's initial
values recorded in `initialState`. -/

/-- The `useState` fields of `CaloriesCalculator`, in declaration order. -/
structure HomeState where
  inputMode : InputMode
  weight : ℚ
  weightUnit : WeightUnit
  height : ℚ
  heightUnit : HeightUnit
  steps : ℚ
  distanceKm : ℚ
  timeMin : ℚ
  pace : PaceKey
  sex : SexKey
  useCustomStride : Bool
  customStrideCm : ℚ
deriving DecidableEq, Repr

/-- The initial values of the `useState` calls (`home.tsx` lines 174–187). -/
def initialState : HomeState :=
  { inputMode := InputMode.steps
    weight := 70
    weightUnit := WeightUnit.kg
    height := 170
    heightUnit := HeightUnit.cm
    steps := 5000
    distanceKm := 4
    timeMin := 40
    pace := PaceKey.brisk
    sex := SexKey.male
    useCustomStride := false
    customStrideCm := 0 }

/-- `calcSteps` (`home.tsx` lines 190–210): derive steps if the user
enters distance or time.  Note the stride here is computed from the raw
`height` state — no `heightUnit` conversion, unlike `heightCm` inside
`useWalkingCalc`.  `Math.round` rounds half towards `+∞`, exactly
Mathlib's `round` on `ℚ`.  (In `ℚ`, division by a zero stride yields
`0`; JavaScript would produce `±Infinity`/`NaN` there — no claim below
is settled at a zero stride.) -/
def calcSteps (s : HomeState) : ℚ :=
  if s.inputMode = InputMode.steps then s.steps
  else
    let km := if s.inputMode = InputMode.distance then s.distanceKm
              else (PACE s.pace).mph * 1.60934 * (s.timeMin / 60)
    let strideCm := if s.useCustomStride
                    then jsOr s.customStrideCm (s.height * STRIDE_FACTORS s.sex)
                    else s.height * STRIDE_FACTORS s.sex
    ((round (km * 1000 / (strideCm / 100)) : ℤ) : ℚ)

/-- The step derivation as §4.1 of the spec words it, for comparison
with `calcSteps`: the effective stride uses `height_cm`, i.e. the
height after the `in → cm` unit normalization, and the custom stride
only when it is positive. -/
def specEffectiveSteps (s : HomeState) : ℚ :=
  if s.inputMode = InputMode.steps then s.steps
  else
    let km := if s.inputMode = InputMode.distance then s.distanceKm
              else (PACE s.pace).mph * 1.60934 * (s.timeMin / 60)
    let heightCm := if s.heightUnit = HeightUnit.cm then s.height else s.height * 2.54
    let stride := if s.useCustomStride = true ∧ 0 < s.customStrideCm
                  then s.customStrideCm
                  else heightCm * STRIDE_FACTORS s.sex
    ((round (km * 1000 / (stride / 100)) : ℤ) : ℚ)

/-- The props with which `CaloriesCalculator` invokes `useWalkingCalc`
(`home.tsx` lines 212–222): the engine's `steps` input is `calcSteps`. -/
def propsOf (s : HomeState) : CalcInput :=
  { weight := s.weight
    weightUnit := s.weightUnit
    height := s.height
    heightUnit := s.heightUnit
    steps := calcSteps s
    sex := s.sex
    pace := s.pace
    customStrideCm := s.customStrideCm
    useCustomStride := s.useCustomStride }

/-- `resetAll` (`home.tsx` lines 224–231): six setter calls, each
overwriting one state field; every other field is untouched. -/
def resetAll (s : HomeState) : HomeState :=
  { s with
    weight := 70
    steps := 5000
    distanceKm := 4
    timeMin := 40
    inputMode := InputMode.steps
    useCustomStride := false }

/-! ## The input-boundary parser `toNumber` (`home.tsx` lines 44–47)

```
function toNumber(v: string) {
  const n = parseFloat(v.replace(",", "."));
  return Number.isFinite(n) ? n : 0;
}
```

`parseFloat` is modelled from the ECMAScript specification
(longest prefix matching `StrDecimalLiteral` after skipping leading
whitespace; `NaN` when no prefix matches), with values kept as exact
rationals.  Whitespace is modelled by the usual ASCII whitespace plus
NBSP and the BOM; `v.replace(",", ".")` replaces only the first comma.
A parse result of magnitude at least `2^1024 - 2^970` rounds to
`±Infinity` as a double, which `Number.isFinite` rejects. -/

/-- Result of `parseFloat`: `NaN`, `±Infinity`, or a finite value. -/
inductive ParseOut where
  | nan : ParseOut
  | infinite : ParseOut
  | finite : ℚ → ParseOut
deriving DecidableEq, Repr

/-- `StrWhiteSpaceChar`, restricted to the characters a form field can
realistically hold: ASCII whitespace, NBSP, BOM. -/
def isStrWhiteSpace (c : Char) : Bool :=
  c = ' ' || c = '\t' || c = '\n' || c = '\r' || c = '\x0b' || c = '\x0c' ||
    c = '\xa0' || c = '\uFEFF'

/-- Drop leading `StrWhiteSpace`. -/
def skipWhiteSpace : List Char → List Char
  | [] => []
  | c :: cs => if isStrWhiteSpace c then skipWhiteSpace cs else c :: cs

/-- Split a leading optional sign, as a rational factor. -/
def splitSign : List Char → ℚ × List Char
  | '+' :: r => (1, r)
  | '-' :: r => (-1, r)
  | r => (1, r)

/-- Longest leading run of decimal digits, and the rest. -/
def takeDigits (cs : List Char) : List Char × List Char :=
  cs.span (fun c => c.isDigit)

/-- Value of a digit string, most significant first. -/
def digitsToNat (ds : List Char) : ℕ :=
  ds.foldl (fun a c => 10 * a + (c.toNat - 48)) 0

/-- Does the input start with the literal `Infinity`? -/
def startsWithInf (cs : List Char) : Bool :=
  match cs with
  | 'I' :: 'n' :: 'f' :: 'i' :: 'n' :: 'i' :: 't' :: 'y' :: _ => true
  | _ => false

/-- Parse `DecimalDigits . DecimalDigits?` / `. DecimalDigits` /
`DecimalDigits`: the unsigned mantissa and the remaining input, or
`none` when no digit occurs on either side of the point. -/
def parseMantissa (cs : List Char) : Option (ℚ × List Char) :=
  let p1 := takeDigits cs
  match p1.2 with
  | '.' :: r =>
    let p2 := takeDigits r
    if p1.1.isEmpty ∧ p2.1.isEmpty then none
    else some ((digitsToNat (p1.1 ++ p2.1) : ℚ) / 10 ^ p2.1.length, p2.2)
  | _ =>
    if p1.1.isEmpty then none
    else some ((digitsToNat p1.1 : ℚ), p1.2)

/-- Parse an optional `ExponentPart` (`e`/`E`, optional sign, digits);
the exponent part is consumed only when at least one digit follows, as
the longest-match rule requires (`"1e"` parses as `1`). -/
def parseExponent (cs : List Char) : ℤ :=
  match cs with
  | c :: rest =>
    if c = 'e' ∨ c = 'E' then
      let sr := splitSign rest
      let ds := takeDigits sr.2
      if ds.1.isEmpty then 0 else (if sr.1 = 1 then 1 else -1) * (digitsToNat ds.1 : ℤ)
    else 0
  | [] => 0

/-- ECMAScript `parseFloat` on a character list, with exact values. -/
def jsParseFloat (s : List Char) : ParseOut :=
  let cs := skipWhiteSpace s
  let sc := splitSign cs
  if startsWithInf sc.2 then ParseOut.infinite
  else
    match parseMantissa sc.2 with
    | none => ParseOut.nan
    | some mr => ParseOut.finite (sc.1 * mr.1 * (10 : ℚ) ^ parseExponent mr.2)

/-- `v.replace(",", ".")`: JavaScript `String.replace` with a string
pattern replaces only the first occurrence. -/
def replaceFirstComma : List Char → List Char
  | [] => []
  | c :: cs => if c = ',' then '.' :: cs else c :: replaceFirstComma cs

/-- Smallest magnitude at which an exact value rounds to `±Infinity`
as an IEEE-754 double (`2^1024 - 2^970`, round-to-nearest-even). -/
def doubleOverflowThreshold : ℚ := 2 ^ 1024 - 2 ^ 970

/-- `Number.isFinite(n) ? n : 0`: the double produced by `parseFloat`
is finite exactly when the exact parse value is below the overflow
threshold in magnitude; `Number.isFinite` then keeps it, and rejects
`NaN`, the `Infinity` literal and overflowed values. -/
def finiteOrZero : ParseOut → ℚ
  | ParseOut.finite q => if |q| < doubleOverflowThreshold then q else 0
  | _ => 0

/-- `toNumber` of `home.tsx` lines 44–47. -/
def toNumber (v : String) : ℚ :=
  finiteOrZero (jsParseFloat (replaceFirstComma v.toList))


/-! ## Basic facts about the engine -/

theorem useWalkingCalcT_strideAuto (tbl : PaceKey → PaceEntry) (i : CalcInput) :
    (useWalkingCalcT tbl i).strideAuto = strideAutoOf i := rfl

theorem useWalkingCalcT_strideCm (tbl : PaceKey → PaceEntry) (i : CalcInput) :
    (useWalkingCalcT tbl i).strideCm = strideCmOf i := rfl

theorem useWalkingCalcT_distanceKm (tbl : PaceKey → PaceEntry) (i : CalcInput) :
    (useWalkingCalcT tbl i).distanceKm = distanceKmOf i := rfl

theorem useWalkingCalcT_distanceMi (tbl : PaceKey → PaceEntry) (i : CalcInput) :
    (useWalkingCalcT tbl i).distanceMi = distanceMiOf i := rfl

theorem useWalkingCalcT_minutes (tbl : PaceKey → PaceEntry) (i : CalcInput) :
    (useWalkingCalcT tbl i).minutes = minutesOf tbl i := rfl

theorem useWalkingCalcT_hours (tbl : PaceKey → PaceEntry) (i : CalcInput) :
    (useWalkingCalcT tbl i).hours = hoursOf tbl i := rfl

theorem useWalkingCalcT_calories (tbl : PaceKey → PaceEntry) (i : CalcInput) :
    (useWalkingCalcT tbl i).calories = caloriesOf tbl i := rfl

theorem useWalkingCalcT_cadence (tbl : PaceKey → PaceEntry) (i : CalcInput) :
    (useWalkingCalcT tbl i).cadence = cadenceOf tbl i := rfl

theorem jsOr_zero_left (b : ℚ) : jsOr 0 b = b := by simp [jsOr]

theorem jsOr_of_ne (a b : ℚ) (h : a ≠ 0) : jsOr a b = a := by simp [jsOr, h]

theorem jsOr_self_zero (a : ℚ) : jsOr a 0 = a := by
  by_cases h : a = 0 <;> simp [jsOr, h]

/-! ## C2 — the MET calorie formula -/

/-- C2: for every input, the engine's `calories` output equals
`mets * 3.5 * weightKg * (minutes / 200)`, where `mets` comes from the
pace table for the given pace and `weightKg` is the weight input when
`weightUnit = kg` and `weight * 0.45359237` when `weightUnit = lb`. -/
theorem calories_is_met_formula (i : CalcInput) :
    (useWalkingCalc i).calories =
      (PACE i.pace).mets * 3.5 *
        (if i.weightUnit = WeightUnit.kg then i.weight else i.weight * 0.45359237) *
        ((useWalkingCalc i).minutes / 200) := rfl

/-! ## C3 — zero custom stride falls back to the auto stride -/

/-- C3: with `useCustomStride = true` and `customStrideCm = 0`, the
effective stride `strideCm` equals `strideAuto = heightCm * strideFactor[sex]`. -/
theorem strideCm_zero_custom_falls_back (i : CalcInput)
    (huse : i.useCustomStride = true) (hzero : i.customStrideCm = 0) :
    (useWalkingCalc i).strideCm = (useWalkingCalc i).strideAuto ∧
      (useWalkingCalc i).strideAuto = heightCmOf i * STRIDE_FACTORS i.sex := by
  constructor
  · show strideCmOf i = strideAutoOf i
    rw [strideCmOf, huse, hzero]
    simp [jsOr]
  · rfl

/-- Witness for C3 at a concrete input. -/
theorem strideCm_zero_custom_falls_back_witness :
    (useWalkingCalc ⟨70, WeightUnit.kg, 170, HeightUnit.cm, 5000, SexKey.male,
        PaceKey.brisk, 0, true⟩).strideCm =
      (useWalkingCalc ⟨70, WeightUnit.kg, 170, HeightUnit.cm, 5000, SexKey.male,
        PaceKey.brisk, 0, true⟩).strideAuto :=
  (strideCm_zero_custom_falls_back
    ⟨70, WeightUnit.kg, 170, HeightUnit.cm, 5000, SexKey.male, PaceKey.brisk, 0, true⟩
    rfl rfl).1

/-! ## C4 — the distance formulas -/

/-- C4: for every input, `distanceKm = effectiveSteps * (strideCm/100) / 1000`
(where `effectiveSteps` is the engine's `steps` input) and
`distanceMi = distanceKm * 0.621371`, exactly in the rational model. -/
theorem distance_formulas (i : CalcInput) :
    (useWalkingCalc i).distanceKm = i.steps * ((useWalkingCalc i).strideCm / 100) / 1000 ∧
      (useWalkingCalc i).distanceMi = (useWalkingCalc i).distanceKm * 0.621371 := by
  refine ⟨?_, rfl⟩
  show distanceKmOf i = i.steps * (strideCmOf i / 100) / 1000
  rw [distanceKmOf, jsOr_self_zero]

/-! ## C10 — the Reset action -/

/-- C10: `resetAll` sets `weight := 70`, `steps := 5000`,
`distanceKm := 4`, `timeMin := 40`, `inputMode := steps`,
`useCustomStride := false`, and leaves every other state field
(`height`, `heightUnit`, `weightUnit`, `pace`, `sex`, `customStrideCm`)
unchanged. -/
theorem resetAll_sets_and_preserves (s : HomeState) :
    (resetAll s).weight = 70 ∧ (resetAll s).steps = 5000 ∧
      (resetAll s).distanceKm = 4 ∧ (resetAll s).timeMin = 40 ∧
      (resetAll s).inputMode = InputMode.steps ∧
      (resetAll s).useCustomStride = false ∧
      (resetAll s).height = s.height ∧ (resetAll s).heightUnit = s.heightUnit ∧
      (resetAll s).weightUnit = s.weightUnit ∧ (resetAll s).pace = s.pace ∧
      (resetAll s).sex = s.sex ∧ (resetAll s).customStrideCm = s.customStrideCm :=
  ⟨rfl, rfl, rfl, rfl, rfl, rfl, rfl, rfl, rfl, rfl, rfl, rfl⟩

/-! ## C5 — guarded division paths -/

/-- A degenerate pace table with zero speed, exercising the `mph > 0`
guard of the engine body. -/
def zeroPaceTable : PaceKey → PaceEntry := fun _ => ⟨0, 0, "degenerate"⟩

/-- C5: the engine is total and its division paths are guarded.
(1) Whatever pace table is in force, a pace row with `mph = 0` yields
`hours = 0`, `minutes = 0` and `calories = 0`; (2) when `minutes` is
not positive, `cadence = 0`; (3) the all-zero input (`weight = 0`,
`steps = 0`) yields `calories = 0`, `distanceKm = 0` and `cadence = 0`.
All outputs are rationals of a total function, never `∞`/`NaN`. -/
theorem engine_division_guards :
    (∀ (tbl : PaceKey → PaceEntry) (i : CalcInput), (tbl i.pace).mph = 0 →
      (useWalkingCalcT tbl i).hours = 0 ∧ (useWalkingCalcT tbl i).minutes = 0 ∧
        (useWalkingCalcT tbl i).calories = 0) ∧
    (∀ (tbl : PaceKey → PaceEntry) (i : CalcInput),
      (useWalkingCalcT tbl i).minutes ≤ 0 → (useWalkingCalcT tbl i).cadence = 0) ∧
    (∀ i : CalcInput, i.weight = 0 → i.steps = 0 →
      (useWalkingCalc i).calories = 0 ∧ (useWalkingCalc i).distanceKm = 0 ∧
        (useWalkingCalc i).cadence = 0) := by
  refine ⟨?_, ?_, ?_⟩
  · intro tbl i hmph
    have hh : hoursOf tbl i = 0 := by
      rw [hoursOf, hmph]
      norm_num
    have hm : minutesOf tbl i = 0 := by
      rw [minutesOf, hh, zero_mul]
    refine ⟨hh, hm, ?_⟩
    show caloriesOf tbl i = 0
    rw [caloriesOf, hm]
    ring
  · intro tbl i hm
    rw [useWalkingCalcT_minutes] at hm
    show cadenceOf tbl i = 0
    rw [cadenceOf, if_neg (not_lt.mpr hm)]
  · intro i hw hs
    have hwkg : weightKgOf i = 0 := by
      rw [weightKgOf, hw]
      split <;> ring
    have hkm : distanceKmOf i = 0 := by
      rw [distanceKmOf, hs, jsOr_zero_left]
      ring
    have hmi : distanceMiOf i = 0 := by
      rw [distanceMiOf, hkm, zero_mul]
    have hm : minutesOf PACE i = 0 := by
      rw [minutesOf, hoursOf, hmi]
      split <;> norm_num
    refine ⟨?_, hkm, ?_⟩
    · show caloriesOf PACE i = 0
      rw [caloriesOf, hwkg]
      ring
    · show cadenceOf PACE i = 0
      rw [cadenceOf, hm]
      norm_num

/-- Witness for C5: the degenerate zero-speed table and the all-zero
input, at concrete values. -/
theorem engine_division_guards_witness :
    ((useWalkingCalcT zeroPaceTable
        ⟨70, WeightUnit.kg, 170, HeightUnit.cm, 5000, SexKey.male,
          PaceKey.brisk, 0, false⟩).hours = 0 ∧
     (useWalkingCalcT zeroPaceTable
        ⟨70, WeightUnit.kg, 170, HeightUnit.cm, 5000, SexKey.male,
          PaceKey.brisk, 0, false⟩).minutes = 0 ∧
     (useWalkingCalcT zeroPaceTable
        ⟨70, WeightUnit.kg, 170, HeightUnit.cm, 5000, SexKey.male,
          PaceKey.brisk, 0, false⟩).calories = 0) ∧
    ((useWalkingCalc
        ⟨0, WeightUnit.kg, 170, HeightUnit.cm, 0, SexKey.male,
          PaceKey.brisk, 0, false⟩).calories = 0 ∧
     (useWalkingCalc
        ⟨0, WeightUnit.kg, 170, HeightUnit.cm, 0, SexKey.male,
          PaceKey.brisk, 0, false⟩).distanceKm = 0 ∧
     (useWalkingCalc
        ⟨0, WeightUnit.kg, 170, HeightUnit.cm, 0, SexKey.male,
          PaceKey.brisk, 0, false⟩).cadence = 0) :=
  ⟨engine_division_guards.1 zeroPaceTable
      ⟨70, WeightUnit.kg, 170, HeightUnit.cm, 5000, SexKey.male,
        PaceKey.brisk, 0, false⟩ rfl,
   engine_division_guards.2.2
      ⟨0, WeightUnit.kg, 170, HeightUnit.cm, 0, SexKey.male,
        PaceKey.brisk, 0, false⟩ rfl rfl⟩

/-! ## C6 — sign and monotonicity of the calorie output -/

theorem STRIDE_FACTORS_pos (sx : SexKey) : 0 < STRIDE_FACTORS sx := by
  cases sx <;> norm_num [STRIDE_FACTORS]

theorem heightCmOf_nonneg (i : CalcInput) (h : 0 ≤ i.height) : 0 ≤ heightCmOf i := by
  rw [heightCmOf]
  split
  · exact h
  · positivity

theorem strideAutoOf_nonneg (i : CalcInput) (h : 0 ≤ i.height) : 0 ≤ strideAutoOf i :=
  mul_nonneg (heightCmOf_nonneg i h) (STRIDE_FACTORS_pos i.sex).le

theorem strideCmOf_nonneg (i : CalcInput) (hh : 0 ≤ i.height)
    (hc : 0 ≤ i.customStrideCm) : 0 ≤ strideCmOf i := by
  rw [strideCmOf]
  split
  · rw [jsOr]
    split
    · exact strideAutoOf_nonneg i hh
    · exact hc
  · exact strideAutoOf_nonneg i hh

theorem distanceKmOf_nonneg (i : CalcInput) (hs : 0 ≤ i.steps) (hh : 0 ≤ i.height)
    (hc : 0 ≤ i.customStrideCm) : 0 ≤ distanceKmOf i := by
  rw [distanceKmOf, jsOr_self_zero]
  have := strideCmOf_nonneg i hh hc
  positivity

theorem distanceMiOf_nonneg (i : CalcInput) (hs : 0 ≤ i.steps) (hh : 0 ≤ i.height)
    (hc : 0 ≤ i.customStrideCm) : 0 ≤ distanceMiOf i := by
  rw [distanceMiOf]
  have := distanceKmOf_nonneg i hs hh hc
  positivity

theorem minutesOf_nonneg (tbl : PaceKey → PaceEntry) (i : CalcInput)
    (hs : 0 ≤ i.steps) (hh : 0 ≤ i.height) (hc : 0 ≤ i.customStrideCm) :
    0 ≤ minutesOf tbl i := by
  rw [minutesOf, hoursOf]
  have hmi := distanceMiOf_nonneg i hs hh hc
  split
  · rename_i hmph
    positivity
  · norm_num

/-- Updating the `weight` field leaves `minutesOf` unchanged. -/
theorem minutesOf_update_weight (tbl : PaceKey → PaceEntry) (i : CalcInput) (w : ℚ) :
    minutesOf tbl { i with weight := w } = minutesOf tbl i := rfl

/-- `minutesOf` only reads the table through `mph` at the input's pace. -/
theorem minutesOf_congr_mph (tbl tbl' : PaceKey → PaceEntry) (i : CalcInput)
    (h : (tbl' i.pace).mph = (tbl i.pace).mph) :
    minutesOf tbl' i = minutesOf tbl i := by
  rw [minutesOf, minutesOf, hoursOf, hoursOf, h]

/-- C6: for valid inputs (non-negative steps and custom stride, positive
height), the calorie output is non-negative whenever `weightKg ≥ 0` and
`mets ≥ 0`, and it is monotonically non-decreasing in `weightKg` and in
`mets` with all other inputs fixed (for `mets`: same pace speed). -/
theorem calories_nonneg_and_monotone (tbl : PaceKey → PaceEntry) (i : CalcInput)
    (hs : 0 ≤ i.steps) (hc : 0 ≤ i.customStrideCm) (hh : 0 < i.height)
    (hw : 0 ≤ weightKgOf i) (hm : 0 ≤ (tbl i.pace).mets) :
    0 ≤ (useWalkingCalcT tbl i).calories ∧
    (∀ w' : ℚ, weightKgOf i ≤ weightKgOf { i with weight := w' } →
      (useWalkingCalcT tbl i).calories ≤
        (useWalkingCalcT tbl { i with weight := w' }).calories) ∧
    (∀ tbl' : PaceKey → PaceEntry, (tbl' i.pace).mph = (tbl i.pace).mph →
      (tbl i.pace).mets ≤ (tbl' i.pace).mets →
      (useWalkingCalcT tbl i).calories ≤ (useWalkingCalcT tbl' i).calories) := by
  have hmin : 0 ≤ minutesOf tbl i := minutesOf_nonneg tbl i hs hh.le hc
  refine ⟨?_, ?_, ?_⟩
  · show 0 ≤ caloriesOf tbl i
    rw [caloriesOf]
    positivity
  · intro w' hww
    show caloriesOf tbl i ≤ caloriesOf tbl { i with weight := w' }
    rw [caloriesOf, caloriesOf, minutesOf_update_weight]
    have h1 : (tbl i.pace).mets * 3.5 * weightKgOf i ≤
        (tbl i.pace).mets * 3.5 * weightKgOf { i with weight := w' } :=
      mul_le_mul_of_nonneg_left hww (by positivity)
    exact mul_le_mul_of_nonneg_right h1 (by positivity)
  · intro tbl' hmph hmets
    show caloriesOf tbl i ≤ caloriesOf tbl' i
    rw [caloriesOf, caloriesOf, minutesOf_congr_mph tbl tbl' i hmph]
    have h1 : (tbl i.pace).mets * 3.5 * weightKgOf i ≤
        (tbl' i.pace).mets * 3.5 * weightKgOf i :=
      mul_le_mul_of_nonneg_right (mul_le_mul_of_nonneg_right hmets (by norm_num)) hw
    exact mul_le_mul_of_nonneg_right h1 (by positivity)

/-- Witness for C6 at the concrete default-style input and the `PACE` table. -/
theorem calories_nonneg_and_monotone_witness :
    0 ≤ (useWalkingCalcT PACE
        ⟨70, WeightUnit.kg, 170, HeightUnit.cm, 5000, SexKey.male,
          PaceKey.brisk, 0, false⟩).calories :=
  (calories_nonneg_and_monotone PACE
    ⟨70, WeightUnit.kg, 170, HeightUnit.cm, 5000, SexKey.male, PaceKey.brisk, 0, false⟩
    (by norm_num) (by norm_num) (by norm_num)
    (by norm_num [weightKgOf]) (by norm_num [PACE])).1

/-! ## C7 — the worked scenario of spec §8 -/

/-- The scenario input of spec §8: weight 70 kg, height 170 cm,
5000 steps, male, brisk pace, no custom stride. -/
def scenarioInput : CalcInput :=
  ⟨70, WeightUnit.kg, 170, HeightUnit.cm, 5000, SexKey.male, PaceKey.brisk, 0, false⟩

/-- Counterexample to C7 as stated: at the scenario input the engine
yields `distanceMi = 2.1918862025` (not `≈ 2.1923`),
`hours = 0.6262532…` (not `≈ 0.6264`), and
`calories = 197.927324…` — roughly half of the claimed `≈ 396.9`. -/
theorem scenario_spec_values_refuted :
    0.0003 < |(useWalkingCalc scenarioInput).distanceMi - 2.1923| ∧
    0.0001 < |(useWalkingCalc scenarioInput).hours - 0.6264| ∧
    198 < |(useWalkingCalc scenarioInput).calories - 396.9| := by
  refine ⟨?_, ?_, ?_⟩ <;>
    norm_num [useWalkingCalc, useWalkingCalcT, distanceMiOf, distanceKmOf, hoursOf,
      caloriesOf, minutesOf, weightKgOf, strideCmOf, strideAutoOf, heightCmOf,
      jsOr, scenarioInput, PACE, STRIDE_FACTORS, lt_abs]

/-- C7 (amended): at the scenario input the engine yields
`strideAuto = 70.55` cm, `distanceKm = 3.5275`, `mph = 3.5` exactly, and
`distanceMi ≈ 2.1919`, `hours ≈ 0.6263`, `minutes ≈ 37.58`,
`calories ≈ 197.93`, each within the stated tolerance. -/
theorem scenario_values :
    (useWalkingCalc scenarioInput).strideAuto = 70.55 ∧
    (useWalkingCalc scenarioInput).distanceKm = 3.5275 ∧
    (useWalkingCalc scenarioInput).mph = 3.5 ∧
    |(useWalkingCalc scenarioInput).distanceMi - 2.1919| < 0.0005 ∧
    |(useWalkingCalc scenarioInput).hours - 0.6263| < 0.0005 ∧
    |(useWalkingCalc scenarioInput).minutes - 37.58| < 0.005 ∧
    |(useWalkingCalc scenarioInput).calories - 197.93| < 0.005 := by
  refine ⟨?_, ?_, ?_, ?_, ?_, ?_, ?_⟩ <;>
    norm_num [useWalkingCalc, useWalkingCalcT, distanceMiOf, distanceKmOf, hoursOf,
      caloriesOf, minutesOf, weightKgOf, strideCmOf, strideAutoOf, heightCmOf,
      jsOr, scenarioInput, PACE, STRIDE_FACTORS, abs_sub_lt_iff, abs_lt]

/-! ## C1 — the step derivation of distance/time mode -/

/-- A state exposing the unit handling of `calcSteps`: distance mode,
1 km, height 70 **inches**, auto stride, male. -/
def inchHeightState : HomeState :=
  ⟨InputMode.distance, 70, WeightUnit.kg, 70, HeightUnit.inch, 5000, 1, 40,
    PaceKey.brisk, SexKey.male, false, 0⟩

/-- C1 evaluated at `inchHeightState`: `calcSteps` uses the raw height
state for the stride (70 · 0.415 = 29.05 cm, giving 3442 steps) and
ignores `heightUnit`, whereas the spec's step derivation normalizes the
height to centimetres first (70 · 2.54 · 0.415 = 73.787 cm, giving
1355 steps).  The engine itself does normalize (`heightCm`), so the two
stride computations of the source disagree on inch-height inputs. -/
theorem inch_eq_cm_false : (HeightUnit.inch = HeightUnit.cm) = False :=
  eq_false (by decide)

theorem distance_eq_steps_false : (InputMode.distance = InputMode.steps) = False :=
  eq_false (by decide)

theorem calcSteps_ignores_heightUnit :
    calcSteps inchHeightState = 3442 ∧
    specEffectiveSteps inchHeightState = 1355 ∧
    calcSteps inchHeightState ≠ specEffectiveSteps inchHeightState := by
  have h1 : calcSteps inchHeightState = 3442 := by
    rw [calcSteps]
    norm_num [inchHeightState, jsOr, STRIDE_FACTORS, round_eq, distance_eq_steps_false]
  have h2 : specEffectiveSteps inchHeightState = 1355 := by
    rw [specEffectiveSteps]
    norm_num [inchHeightState, STRIDE_FACTORS, round_eq, inch_eq_cm_false,
      distance_eq_steps_false]
  refine ⟨h1, h2, ?_⟩
  rw [h1, h2]
  norm_num

/-! ## C9 — cadence does not depend on the step count -/

/-- Closed form of the cadence when all the guards pass: the step count
cancels between `steps` and `minutes`. -/
theorem cadenceOf_closed_form (i : CalcInput) (hs : 0 < i.steps)
    (hstr : 0 < strideCmOf i) (hmph : 0 < (PACE i.pace).mph) :
    cadenceOf PACE i = (PACE i.pace).mph * 100000 / (60 * 0.621371 * strideCmOf i) := by
  have hsne : i.steps ≠ 0 := ne_of_gt hs
  have hdm : distanceMiOf i = i.steps * (strideCmOf i / 100) / 1000 * 0.621371 := by
    rw [distanceMiOf, distanceKmOf, jsOr_of_ne _ _ hsne]
  have hmin : minutesOf PACE i =
      i.steps * (strideCmOf i / 100) / 1000 * 0.621371 / (PACE i.pace).mph * 60 := by
    rw [minutesOf, hoursOf, if_pos hmph, hdm]
  have hminpos : 0 < minutesOf PACE i := by
    rw [hmin]
    positivity
  have hstrne : strideCmOf i ≠ 0 := ne_of_gt hstr
  have hmphne : (PACE i.pace).mph ≠ 0 := ne_of_gt hmph
  rw [cadenceOf, if_pos hminpos, hmin]
  field_simp
  ring

/-- C9 (implicit): with positive steps, stride and pace speed, the
engine's cadence equals `mph * 100000 / (60 * 0.621371 * strideCm)` —
a value independent of the step count — so two inputs differing only in
their (positive) step counts produce the same cadence. -/
theorem cadence_independent_of_steps (i : CalcInput) (hs : 0 < i.steps)
    (hstr : 0 < (useWalkingCalc i).strideCm) (hmph : 0 < (PACE i.pace).mph) :
    (useWalkingCalc i).cadence =
      (PACE i.pace).mph * 100000 / (60 * 0.621371 * (useWalkingCalc i).strideCm) ∧
    ∀ s' : ℚ, 0 < s' →
      (useWalkingCalc { i with steps := s' }).cadence = (useWalkingCalc i).cadence := by
  have hstr' : 0 < strideCmOf i := hstr
  constructor
  · exact cadenceOf_closed_form i hs hstr' hmph
  · intro s' hs'
    show cadenceOf PACE { i with steps := s' } = cadenceOf PACE i
    rw [cadenceOf_closed_form { i with steps := s' } hs' hstr' hmph,
      cadenceOf_closed_form i hs hstr' hmph]
    rfl

/-- Witness for C9 at the concrete scenario input. -/
theorem cadence_independent_of_steps_witness :
    (useWalkingCalc scenarioInput).cadence =
      (PACE scenarioInput.pace).mph * 100000 /
        (60 * 0.621371 * (useWalkingCalc scenarioInput).strideCm) :=
  (cadence_independent_of_steps scenarioInput
    (by norm_num [scenarioInput])
    (by norm_num [useWalkingCalc, useWalkingCalcT, strideCmOf, strideAutoOf,
      heightCmOf, jsOr, scenarioInput, STRIDE_FACTORS])
    (by norm_num [PACE, scenarioInput])).1

/-! ## C8 — the parse-with-fallback input boundary -/

theorem four_le_doubleOverflowThreshold : (4 : ℚ) ≤ doubleOverflowThreshold := by
  rw [doubleOverflowThreshold]
  have h1 : (2 : ℚ) ^ 970 ≤ 2 ^ 1023 := pow_le_pow_right₀ (by norm_num) (by norm_num)
  have h2 : (2 : ℚ) ^ 1024 = 2 ^ 1023 * 2 := by rw [pow_succ]
  have h3 : (4 : ℚ) ≤ 2 ^ 1023 := by
    calc (4 : ℚ) = 2 ^ 2 := by norm_num
    _ ≤ 2 ^ 1023 := pow_le_pow_right₀ (by norm_num) (by norm_num)
  linarith

theorem doubleOverflowThreshold_pos : 0 < doubleOverflowThreshold :=
  lt_of_lt_of_le (by norm_num) four_le_doubleOverflowThreshold

/-- C8: `toNumber` maps every string to a finite number — its result is
always below the double-overflow threshold in magnitude; it returns the
parsed value (comma accepted as decimal separator via the first-comma
replacement) whenever the parse succeeds with a finite double, and `0`
when the input is unparsable (`NaN`), an `Infinity` literal, or a value
that overflows to `±Infinity`. -/
theorem toNumber_total_with_fallback (v : String) :
    |toNumber v| < doubleOverflowThreshold ∧
    (∀ q : ℚ, jsParseFloat (replaceFirstComma v.toList) = ParseOut.finite q →
      |q| < doubleOverflowThreshold → toNumber v = q) ∧
    (jsParseFloat (replaceFirstComma v.toList) = ParseOut.nan → toNumber v = 0) ∧
    (jsParseFloat (replaceFirstComma v.toList) = ParseOut.infinite → toNumber v = 0) ∧
    (∀ q : ℚ, jsParseFloat (replaceFirstComma v.toList) = ParseOut.finite q →
      doubleOverflowThreshold ≤ |q| → toNumber v = 0) := by
  have hthr := doubleOverflowThreshold_pos
  have hto : toNumber v = finiteOrZero (jsParseFloat (replaceFirstComma v.toList)) := rfl
  cases h : jsParseFloat (replaceFirstComma v.toList) with
  | nan =>
    rw [h] at hto
    have h0 : toNumber v = 0 := by
      rw [hto]
      rfl
    refine ⟨?_, ?_, fun _ => h0, ?_, ?_⟩
    · rw [h0, abs_zero]
      exact hthr
    · intro q hq
      exact ParseOut.noConfusion hq
    · intro hq
      exact ParseOut.noConfusion hq
    · intro q hq
      exact ParseOut.noConfusion hq
  | infinite =>
    rw [h] at hto
    have h0 : toNumber v = 0 := by
      rw [hto]
      rfl
    refine ⟨?_, ?_, ?_, fun _ => h0, ?_⟩
    · rw [h0, abs_zero]
      exact hthr
    · intro q hq
      exact ParseOut.noConfusion hq
    · intro hq
      exact ParseOut.noConfusion hq
    · intro q hq
      exact ParseOut.noConfusion hq
  | finite q =>
    rw [h] at hto
    have hfin : toNumber v = if |q| < doubleOverflowThreshold then q else 0 := by
      rw [hto]
      rfl
    by_cases hq : |q| < doubleOverflowThreshold
    · have h0 : toNumber v = q := by rw [hfin, if_pos hq]
      refine ⟨?_, ?_, ?_, ?_, ?_⟩
      · rw [h0]
        exact hq
      · intro q' hq' _
        injection hq' with hqq
        rw [h0, hqq]
      · intro hq'
        exact ParseOut.noConfusion hq'
      · intro hq'
        exact ParseOut.noConfusion hq'
      · intro q' hq' hge
        injection hq' with hqq
        rw [← hqq] at hge
        exact absurd hq (not_lt.mpr hge)
    · have h0 : toNumber v = 0 := by rw [hfin, if_neg hq]
      refine ⟨?_, ?_, ?_, ?_, ?_⟩
      · rw [h0, abs_zero]
        exact hthr
      · intro q' hq' hlt
        injection hq' with hqq
        rw [hqq] at hq
        exact absurd hlt hq
      · intro hq'
        exact ParseOut.noConfusion hq'
      · intro hq'
        exact ParseOut.noConfusion hq'
      · intro q' hq' hge
        exact h0

/-- Witness for C8: the comma-decimal string `"3,5"` parses to `3.5`,
and `toNumber` returns it, below the overflow threshold. -/
theorem toNumber_total_with_fallback_witness :
    toNumber "3,5" = 7 / 2 ∧ |toNumber "3,5"| < doubleOverflowThreshold := by
  have hd : digitsToNat ['3', '5'] = 35 := by decide
  have key : jsParseFloat (replaceFirstComma "3,5".toList) =
      ParseOut.finite (1 * ((digitsToNat ['3', '5'] : ℚ) / 10 ^ (1 : ℕ)) *
        (10 : ℚ) ^ (0 : ℤ)) := rfl
  have hval : 1 * ((digitsToNat ['3', '5'] : ℚ) / 10 ^ (1 : ℕ)) * (10 : ℚ) ^ (0 : ℤ) =
      7 / 2 := by
    rw [hd]
    norm_num
  rw [hval] at key
  have habs : |(7 / 2 : ℚ)| < doubleOverflowThreshold := by
    rw [abs_of_nonneg (by norm_num)]
    have := four_le_doubleOverflowThreshold
    linarith
  refine ⟨(toNumber_total_with_fallback "3,5").2.1 (7 / 2) key habs, ?_⟩
  exact (toNumber_total_with_fallback "3,5").1

end ILoveSteps
